import Mathlib

/-!
# OddsFetcher: a shallow embedding of the repository's scripts

This file embeds the data model and operations of the OddsFetcher scripts
(`checkcredits.py`, `fetchodds.py`, `fetchoddsMLB.py`, `fetchstatsMLB.py`)
and proves the specification's claims about them.

Modelling conventions:
* Python JSON-ish values are the inductive `PyVal`; dictionaries are
  association lists; `d[k]` is `dictGet` (raising `KeyError` in the
  `Except PyErr` monad) and `d.get(k, default)` is `dictGetD`.
* HTTP is an oracle `net : Nat → HttpResponse` handing out the response to
  the n-th request a function issues; each fetcher also returns the trace
  of request parameter sets it sent, so that "how many requests" and
  "which parameters" are provable facts.
* `requests`' `raise_for_status` raises exactly for status codes in
  [400, 600), modelled by `raisesForStatus`.
* The unbounded `while True` pagination loop of `fetchstatsMLB.py` is
  embedded with a fuel parameter; termination of the Python loop is the
  fact that past the first empty page the result no longer depends on fuel.
* `str()` rendering of non-string container values inside f-strings is
  abstracted (the claims only exercise string fields).
-/

/-- A Python JSON-ish value: strings, integers, `None`, lists and dicts. -/
inductive PyVal : Type where
  | str : String → PyVal
  | int : Int → PyVal
  | none : PyVal
  | list : List PyVal → PyVal
  | obj : List (String × PyVal) → PyVal

/-- Lookup of a key in a dict (association list, keys unique). -/
def pyLookup (fields : List (String × PyVal)) (k : String) : Option PyVal :=
  match fields with
  | [] => Option.none
  | (k2, v) :: rest => if k2 = k then some v else pyLookup rest k

/-- The Python exceptions the scripts' parsing can raise. -/
inductive PyErr : Type where
  | keyError (k : String)
  | typeError (msg : String)
deriving DecidableEq

/-- Python `d[k]`: the value, or a `KeyError` for a missing key. -/
def dictGet (o : List (String × PyVal)) (k : String) : Except PyErr PyVal :=
  match pyLookup o k with
  | some v => Except.ok v
  | Option.none => Except.error (PyErr.keyError k)

/-- Python `d.get(k, default)`. -/
def dictGetD (o : List (String × PyVal)) (k : String) (d : PyVal) : PyVal :=
  (pyLookup o k).getD d

mutual

/-- Python structural equality `==` on values. -/
def pyBeq : PyVal → PyVal → Bool
  | .str a, .str b => a == b
  | .int a, .int b => a == b
  | .none, .none => true
  | .list as, .list bs => pyBeqL as bs
  | .obj as, .obj bs => pyBeqO as bs
  | _, _ => false

/-- Python `==` on lists of values. -/
def pyBeqL : List PyVal → List PyVal → Bool
  | [], [] => true
  | a :: as, b :: bs => pyBeq a b && pyBeqL as bs
  | _, _ => false

/-- Python `==` on dicts. -/
def pyBeqO : List (String × PyVal) → List (String × PyVal) → Bool
  | [], [] => true
  | (k1, v1) :: as, (k2, v2) :: bs => k1 == k2 && pyBeq v1 v2 && pyBeqO as bs
  | _, _ => false

end

/-- Python truthiness (`if v:`). -/
def pyTruthy : PyVal → Bool
  | .str s => !(s == "")
  | .int n => !(n == 0)
  | .none => false
  | .list l => !l.isEmpty
  | .obj f => !f.isEmpty

/-- Python `str()` as used in f-strings; rendering of containers abstracted. -/
def pyStr : PyVal → String
  | .str s => s
  | .int n => toString n
  | .none => "None"
  | .list _ => "<list>"
  | .obj _ => "<dict>"

/-- Expect a list value (iterating a non-list raises `TypeError`). -/
def asList : PyVal → Except PyErr (List PyVal)
  | .list l => Except.ok l
  | _ => Except.error (PyErr.typeError "expected list")

/-- Expect a dict value (indexing a non-dict raises `TypeError`). -/
def asObj : PyVal → Except PyErr (List (String × PyVal))
  | .obj f => Except.ok f
  | _ => Except.error (PyErr.typeError "expected dict")

/-- Whether a computation raised a Python `KeyError`. -/
def isKeyError {α : Type} : Except PyErr α → Bool
  | .error (.keyError _) => true
  | _ => false

/-- The per-game header fields of `fetchoddsMLB.py`'s `game_info` dict. -/
structure GameInfo where
  commence_time : PyVal
  away_team : PyVal
  home_team : PyVal

/-- One CSV row as written by `write_odds_row` (`fetchoddsMLB.py`). -/
structure CsvRow where
  commence_time : PyVal
  away_team : PyVal
  home_team : PyVal
  bookmaker : PyVal
  market_key : PyVal
  outcome_name : PyVal
  player_name : PyVal
  description : PyVal
  price : PyVal
  point : PyVal

/-- `write_odds_row` of `fetchoddsMLB.py` (lines 54-81): builds the
`outcome_name` from `player_name`/`description` and writes one row. -/
def write_odds_row (gi : GameInfo) (bookmaker market : PyVal)
    (outcome : List (String × PyVal)) : Except PyErr CsvRow := do
  let outcome_name ← dictGet outcome "name"
  let player_name := dictGetD outcome "player_name" (PyVal.str "")
  let description := dictGetD outcome "description" (PyVal.str "")
  let full_outcome_name :=
    if pyTruthy player_name then
      if pyTruthy description && !(pyBeq description outcome_name) then
        PyVal.str (pyStr player_name ++ " - " ++ pyStr description)
      else
        PyVal.str (pyStr player_name ++ " - " ++ pyStr outcome_name)
    else outcome_name
  let price ← dictGet outcome "price"
  return { commence_time := gi.commence_time, away_team := gi.away_team,
           home_team := gi.home_team, bookmaker := bookmaker,
           market_key := market, outcome_name := full_outcome_name,
           player_name := player_name, description := description,
           price := price, point := dictGetD outcome "point" (PyVal.str "") }

/-- One bookmaker of the featured-odds loop of `fetchoddsMLB.py`
(lines 129-134): `book.get('title', book.get('key'))`, then every outcome
of every market becomes a CSV row. -/
def processBook (gi : GameInfo) (bookV : PyVal) : Except PyErr (List CsvRow) := do
  let book ← asObj bookV
  let bookmaker := dictGetD book "title" (dictGetD book "key" PyVal.none)
  let markets ← asList (← dictGet book "markets")
  markets.foldlM (fun acc mV => do
    let m ← asObj mV
    let market ← dictGet m "key"
    let outcomes ← asList (← dictGet m "outcomes")
    let rows ← outcomes.mapM (fun oV => do
      let o ← asObj oV
      write_odds_row gi bookmaker market o)
    return acc ++ rows) ([] : List CsvRow)

/-- One game of the featured-odds loop of `fetchoddsMLB.py` (lines
122-134): direct key access for `commence_time`, `away_team`, `home_team`
and `bookmakers`, then rows for every bookmaker. -/
def processGame (game : List (String × PyVal)) : Except PyErr (List CsvRow) := do
  let ct ← dictGet game "commence_time"
  let aw ← dictGet game "away_team"
  let hm ← dictGet game "home_team"
  let gi : GameInfo := ⟨ct, aw, hm⟩
  let books ← asList (← dictGet game "bookmakers")
  books.foldlM (fun acc bookV => do
    let rows ← processBook gi bookV
    return acc ++ rows) ([] : List CsvRow)

/-- The API key hardcoded identically in `checkcredits.py`, `fetchodds.py`
and `fetchoddsMLB.py`. -/
def API_KEY : String := "04d4c837f7bcb3224dd30c6adc55becc"

/-- `REGIONS` of `fetchodds.py` / `fetchoddsMLB.py`. -/
def REGIONS : String := "us"

/-- `ODDS_FMT` of `fetchodds.py` / `fetchoddsMLB.py`. -/
def ODDS_FMT : String := "american"

/-- `DATE_FMT` of `fetchodds.py` / `fetchoddsMLB.py`. -/
def DATE_FMT : String := "iso"

/-- `PATH` of `fetchodds.py`: the hardcoded JSON output path. -/
def PATH : String := "C:/Users/charl/Downloads/OddsFetched/odds.json"

/-- `CSV_PATH` of `fetchoddsMLB.py`: the hardcoded CSV output path. -/
def CSV_PATH : String := "C:/Users/charl/Downloads/OddsFetched/odds.csv"

/-- `OUTPUT_PLAYER_CSV_PATH` of `fetchstatsMLB.py`. -/
def OUTPUT_PLAYER_CSV_PATH : String :=
  "C:/Users/charl/Downloads/OddsFetched/player_stats.csv"

/-- `OUTPUT_TEAM_CSV_PATH` of `fetchstatsMLB.py`. -/
def OUTPUT_TEAM_CSV_PATH : String :=
  "C:/Users/charl/Downloads/OddsFetched/team_stats.csv"

/-- `FEATURED_MARKETS` of `fetchodds.py` / `fetchoddsMLB.py`. -/
def FEATURED_MARKETS : List String := ["h2h", "spreads", "totals"]

/-- The query parameters the odds scripts attach to a GET request. -/
structure OddsParams where
  apiKey : String
  regions : String
  markets : String
  oddsFormat : String
  dateFormat : String
deriving DecidableEq

/-- The `params` dict built by `fetch_featured_odds` and `fetch_event_odds`
(identical in `fetchodds.py` and `fetchoddsMLB.py`). -/
def oddsParams (markets : List String) : OddsParams :=
  { apiKey := API_KEY, regions := REGIONS,
    markets := String.intercalate "," markets,
    oddsFormat := ODDS_FMT, dateFormat := DATE_FMT }

/-- An HTTP response: status code and JSON body. -/
structure HttpResponse where
  status : Nat
  body : PyVal

/-- `requests.Response.raise_for_status` raises `HTTPError` exactly for
status codes in [400, 600). -/
def raisesForStatus (s : Nat) : Bool := decide (400 ≤ s) && decide (s < 600)

/-- `fetch_featured_odds` (`fetchodds.py` lines 17-42, identical logic in
`fetchoddsMLB.py` lines 17-37): one GET; on an `HTTPError` with status 422
one retry with `markets` replaced by `FEATURED_MARKETS`, whose outcome is
returned; on any other `HTTPError` the exception propagates.  `net n` is
the response to the n-th request issued; the first component of the result
is the trace of parameter sets sent. -/
def fetch_featured_odds (net : Nat → HttpResponse) (markets : List String) :
    List OddsParams × Except Nat PyVal :=
  let params1 := oddsParams markets
  let r1 := net 0
  if raisesForStatus r1.status then
    if r1.status = 422 then
      let params2 :=
        { params1 with markets := String.intercalate "," FEATURED_MARKETS }
      let r2 := net 1
      if raisesForStatus r2.status then ([params1, params2], .error r2.status)
      else ([params1, params2], .ok r2.body)
    else ([params1], .error r1.status)
  else ([params1], .ok r1.body)

/-- `fetch_event_odds` (`fetchodds.py` lines 45-61, `fetchoddsMLB.py`
lines 40-51): a single GET with no retry. -/
def fetch_event_odds (net : Nat → HttpResponse) (extra_markets : List String) :
    List OddsParams × Except Nat PyVal :=
  let p := oddsParams extra_markets
  let r := net 0
  if raisesForStatus r.status then ([p], .error r.status) else ([p], .ok r.body)

/-- The `params` dict of `checkcredits.py` (lines 10-16). -/
def checkcredits_params : OddsParams :=
  { apiKey := API_KEY, regions := "us", markets := "h2h,spreads,totals",
    oddsFormat := "decimal", dateFormat := "iso" }

/-- A response as seen by `checkcredits.py`: status code and headers. -/
structure CcResponse where
  status : Nat
  headers : List (String × String)

/-- Python `headers.get(k)`: `None` when the header is absent. -/
def headersGet (hs : List (String × String)) (k : String) : Option String :=
  match hs with
  | [] => Option.none
  | (k2, v) :: rest => if k2 = k then some v else headersGet rest k

/-- The body of `checkcredits.py` (lines 18-25): one GET, then
`raise_for_status`, then print the `x-requests-remaining` header.  The
first component is the trace of parameter sets sent; the second is the
printed credits value, or the propagated error status. -/
def checkcredits_run (net : Nat → CcResponse) :
    List OddsParams × Except Nat (Option String) :=
  let r := net 0
  ([checkcredits_params],
   if raisesForStatus r.status then .error r.status
   else .ok (headersGet r.headers "x-requests-remaining"))

/-- The query parameters `fetch_all_hitting_stats` / `fetch_all_pitching_stats`
(`fetchstatsMLB.py`) attach to a `statsapi.get("stats", ...)` call. -/
structure StatsRequest where
  stats : String
  season : Int
  group : String
  playerPool : String
  hydrate : String
  limit : Nat
  offset : Nat
deriving DecidableEq

/-- The `params` dict of the pagination loop body (`fetchstatsMLB.py`
lines 45-53 and 95-103). -/
def statsParams (group : String) (season : Int) (offset : Nat) : StatsRequest :=
  { stats := "season", season := season, group := group, playerPool := "ALL",
    hydrate := "person([id,name])", limit := 100, offset := offset }

/-- One split of a stats block: `split["player"]["id"]`,
`split["player"]["fullName"]` and the `stat` metric dict. -/
structure Split where
  playerId : Int
  playerName : String
  stat : List (String × String)
deriving DecidableEq

/-- One block of the response's `stats` list. -/
structure StatBlock where
  splits : List Split
deriving DecidableEq

/-- A page: the `stats` list of one response (`raw.get("stats", [])`). -/
abbrev Page := List StatBlock

/-- The loop's exit test (`fetchstatsMLB.py` line 58): no stats blocks, or
every block has an empty `splits` list. -/
def pageIsEmpty (p : Page) : Bool :=
  p.isEmpty || p.all (fun b => b.splits.length == 0)

/-- One row of the accumulated player table: `playerId`, `playerName` and
the metric fields prefixed with the group tag. -/
structure StatRow where
  playerId : Int
  playerName : String
  stats : List (String × String)
deriving DecidableEq

/-- The row built from one split (`fetchstatsMLB.py` lines 63-74): the
metric fields get the tag (`"hitting_"` or `"pitching_"`) prepended. -/
def splitRow (tag : String) (s : Split) : StatRow :=
  { playerId := s.playerId, playerName := s.playerName,
    stats := s.stat.map (fun fv => (tag ++ fv.1, fv.2)) }

/-- The `batch_rows` built from one page (`fetchstatsMLB.py` lines 61-74):
one row per split of every block, in order. -/
def pageRows (tag : String) (p : Page) : List StatRow :=
  p.flatMap (fun b => b.splits.map (splitRow tag))

/-- The `while True` pagination loop (`fetchstatsMLB.py` lines 44-80 and
94-130), with fuel standing in for the unbounded loop; `api` answers each
request with a page.  Returns the trace of requests issued and the
accumulated rows: break on an empty page, else extend `all_rows` with the
batch and advance `offset` by `limit = 100`. -/
def fetchStatsLoop (api : StatsRequest → Page) (group tag : String)
    (season : Int) : Nat → Nat → List StatsRequest × List StatRow
  | 0, _ => ([], [])
  | fuel + 1, offset =>
    let req := statsParams group season offset
    let p := api req
    if pageIsEmpty p then ([req], [])
    else
      let batch := pageRows tag p
      if batch.isEmpty then ([req], [])
      else
        let rest := fetchStatsLoop api group tag season fuel (offset + 100)
        (req :: rest.1, batch ++ rest.2)

/-- `fetch_all_hitting_stats` (`fetchstatsMLB.py` lines 35-82): the rows of
the paginated hitting fetch starting at offset 0. -/
def fetch_all_hitting_stats (api : StatsRequest → Page) (season : Int)
    (fuel : Nat) : List StatRow :=
  (fetchStatsLoop api "hitting" "hitting_" season fuel 0).2

/-- `fetch_all_pitching_stats` (`fetchstatsMLB.py` lines 85-132): the rows
of the paginated pitching fetch starting at offset 0. -/
def fetch_all_pitching_stats (api : StatsRequest → Page) (season : Int)
    (fuel : Nat) : List StatRow :=
  (fetchStatsLoop api "pitching" "pitching_" season fuel 0).2

/-- One row of the merged player table: the hitting row and/or the pitching
row sharing one `playerId` (absent side = NaN-filled in pandas). -/
structure MergedRow where
  hit : Option StatRow
  pit : Option StatRow
deriving DecidableEq

/-- The `playerId` key of a merged row (both sides agree when present). -/
def mergedKey (m : MergedRow) : Int :=
  match m.hit with
  | some h => h.playerId
  | Option.none =>
    match m.pit with
    | some p => p.playerId
    | Option.none => 0

/-- `pd.merge(hitting_df, pitching_df, on="playerId", how="outer")`
(`fetchstatsMLB.py` lines 232-239): every matching pair of rows, left rows
without a match paired with NaN, and right rows without a match paired
with NaN. -/
def outerMergeOnPlayerId (l r : List StatRow) : List MergedRow :=
  (l.flatMap (fun h =>
    let ms := r.filter (fun p => p.playerId == h.playerId)
    if ms.isEmpty then [⟨some h, Option.none⟩]
    else ms.map (fun p => ⟨some h, some p⟩)))
  ++ (r.filter (fun p => l.all (fun h => !(h.playerId == p.playerId)))).map
      (fun p => ⟨Option.none, some p⟩)

/-- What `fetch_event_odds` does for one event in the extra-markets phase:
either a JSON body, or an `HTTPError` raised by `raise_for_status`. -/
inductive EventFetch : Type where
  | ok (body : List (String × PyVal))
  | httpError (msg : String)

/-- The outcome of one iteration of the extra-markets loop body
(`fetchoddsMLB.py` lines 157-175). -/
inductive StepResult : Type where
  | rows (rs : List CsvRow)
  | skipped
  | aborted (e : PyErr)

/-- One iteration of the extra-markets loop (`fetchoddsMLB.py` lines
158-175): fetch the event's odds; an `HTTPError` is caught (a message is
printed and the loop continues), any other exception — a `KeyError` or
`TypeError` from the body — propagates.  Python evaluates the default
argument of `full.get('commence_time', game['commence_time'])` eagerly, so
a key missing from `game` raises even when `full` has it. -/
def gameExtraStep (eventFetch : PyVal → EventFetch) (gameV : PyVal) :
    StepResult :=
  match (do
    let game ← asObj gameV
    let gid ← dictGet game "id"
    return (game, gid) : Except PyErr (List (String × PyVal) × PyVal)) with
  | .error e => .aborted e
  | .ok (game, gid) =>
    match eventFetch gid with
    | .httpError _ => .skipped
    | .ok full =>
      match (do
        let dct ← dictGet game "commence_time"
        let dat ← dictGet game "away_team"
        let dht ← dictGet game "home_team"
        let gi : GameInfo := ⟨dictGetD full "commence_time" dct,
                              dictGetD full "away_team" dat,
                              dictGetD full "home_team" dht⟩
        let books ← asList (← dictGet full "bookmakers")
        books.foldlM (fun acc bookV => do
          let rows ← processBook gi bookV
          return acc ++ rows) ([] : List CsvRow)
        : Except PyErr (List CsvRow)) with
      | .ok rs => .rows rs
      | .error e => .aborted e

/-- The extra-markets phase over `today_games` (`fetchoddsMLB.py` lines
157-175): the CSV rows that end up written and, when an uncaught exception
aborts the loop, its message. -/
def extraMarketsLoop (eventFetch : PyVal → EventFetch) :
    List PyVal → List CsvRow × Option PyErr
  | [] => ([], Option.none)
  | g :: gs =>
    match gameExtraStep eventFetch g with
    | .rows rs =>
      let rest := extraMarketsLoop eventFetch gs
      (rs ++ rest.1, rest.2)
    | .skipped => extraMarketsLoop eventFetch gs
    | .aborted e => ([], some e)

/-- A concrete stats API for witnesses: one non-empty page at offset 0,
empty pages everywhere else. -/
def apiOne : StatsRequest → Page :=
  fun r => if r.offset = 0 then [⟨[⟨7, "Ace", [("homeRuns", "2")]⟩]⟩] else []

/-- A concrete outcome dict for witnesses. -/
def outcomeW : List (String × PyVal) :=
  [("name", PyVal.str "Over"), ("price", PyVal.int 150),
   ("player_name", PyVal.str "Judge"), ("description", PyVal.str "2+ hits")]

/-- A concrete game-info for witnesses. -/
def giW : GameInfo := ⟨PyVal.str "t0", PyVal.str "A", PyVal.str "H"⟩

theorem featured_trace_apiKey (net : Nat → HttpResponse)
    (markets : List String) :
    ∀ p ∈ (fetch_featured_odds net markets).1, p.apiKey = API_KEY := by
  intro p hp
  simp only [fetch_featured_odds] at hp
  split_ifs at hp <;>
    simp only [List.mem_cons, List.not_mem_nil, or_false] at hp <;>
    first
      | (subst hp; rfl)
      | (rcases hp with h | h <;> subst h <;> rfl)

/-- C6: every script that calls the odds API sends the identical hardcoded
string as the `apiKey` parameter, and every output file path is a fixed
string constant; across any two runs (any response oracles and market
lists — the scripts read no environment variables or command-line input)
the key sent and the paths coincide. -/
theorem hardcoded_key_and_paths (net net' : Nat → HttpResponse)
    (cc : Nat → CcResponse) (markets markets' extra : List String) :
    (∀ p ∈ (fetch_featured_odds net markets).1,
        p.apiKey = "04d4c837f7bcb3224dd30c6adc55becc")
    ∧ (fetch_event_odds net extra).1 = [oddsParams extra]
    ∧ (oddsParams extra).apiKey = "04d4c837f7bcb3224dd30c6adc55becc"
    ∧ checkcredits_params.apiKey = "04d4c837f7bcb3224dd30c6adc55becc"
    ∧ (checkcredits_run cc).1 = [checkcredits_params]
    ∧ (∀ p ∈ (fetch_featured_odds net markets).1,
        ∀ p' ∈ (fetch_featured_odds net' markets').1, p.apiKey = p'.apiKey)
    ∧ PATH = "C:/Users/charl/Downloads/OddsFetched/odds.json"
    ∧ CSV_PATH = "C:/Users/charl/Downloads/OddsFetched/odds.csv"
    ∧ OUTPUT_PLAYER_CSV_PATH
        = "C:/Users/charl/Downloads/OddsFetched/player_stats.csv"
    ∧ OUTPUT_TEAM_CSV_PATH
        = "C:/Users/charl/Downloads/OddsFetched/team_stats.csv" := by
  refine ⟨featured_trace_apiKey net markets, ?_, rfl, rfl, rfl, ?_, rfl, rfl,
    rfl, rfl⟩
  · simp only [fetch_event_odds]
    split_ifs <;> rfl
  · intro p hp p' hp'
    rw [featured_trace_apiKey net markets p hp,
      featured_trace_apiKey net' markets' p' hp']

/-- C7: `checkcredits.py` issues exactly one GET; a 2xx status prints the
`x-requests-remaining` header value (`None` when absent); an HTTP error
status makes `raise_for_status` raise, so the credits line is never
printed; no retry is attempted. -/
theorem checkcredits_one_shot (net : Nat → CcResponse) :
    (checkcredits_run net).1.length = 1
    ∧ (200 ≤ (net 0).status → (net 0).status < 300 →
        (checkcredits_run net).2
          = .ok (headersGet (net 0).headers "x-requests-remaining"))
    ∧ (200 ≤ (net 0).status → (net 0).status < 300 →
        headersGet (net 0).headers "x-requests-remaining" = Option.none →
        (checkcredits_run net).2 = .ok Option.none)
    ∧ (raisesForStatus (net 0).status = true →
        (checkcredits_run net).2 = .error (net 0).status) := by
  refine ⟨rfl, ?_, ?_, ?_⟩
  · intro h1 h2
    have hb : raisesForStatus (net 0).status = false := by
      unfold raisesForStatus
      simp only [Bool.and_eq_false_iff, decide_eq_false_iff_not]
      omega
    simp only [checkcredits_run]
    rw [hb]
    rfl
  · intro h1 h2 h3
    have hb : raisesForStatus (net 0).status = false := by
      unfold raisesForStatus
      simp only [Bool.and_eq_false_iff, decide_eq_false_iff_not]
      omega
    simp only [checkcredits_run]
    rw [hb, h3]
    rfl
  · intro h
    simp only [checkcredits_run]
    rw [h]
    rfl

/-- C3: the only recovery behaviour is one retry on HTTP 422: when the
first GET's status is 422 exactly one retry is issued, with `markets`
replaced by `FEATURED_MARKETS` joined to `"h2h,spreads,totals"`, and its
body is returned when it succeeds; a first failure with any other HTTP
error status propagates with no retry; every call issues at most two
requests. -/
theorem fetch_featured_odds_single_retry (net : Nat → HttpResponse)
    (markets : List String) :
    (fetch_featured_odds net markets).1.length ≤ 2
    ∧ ((net 0).status = 422 →
        (fetch_featured_odds net markets).1
          = [oddsParams markets,
             { oddsParams markets with markets := "h2h,spreads,totals" }]
        ∧ (raisesForStatus (net 1).status = false →
            (fetch_featured_odds net markets).2 = .ok (net 1).body))
    ∧ (raisesForStatus (net 0).status = true → (net 0).status ≠ 422 →
        (fetch_featured_odds net markets).1 = [oddsParams markets]
        ∧ (fetch_featured_odds net markets).2
            = .error (net 0).status) := by
  refine ⟨?_, ?_, ?_⟩
  · simp only [fetch_featured_odds]
    split_ifs <;> simp
  · intro h422
    have hr : raisesForStatus 422 = true := by rfl
    constructor
    · simp only [fetch_featured_odds, h422, hr, if_true]
      split_ifs <;> rfl
    · intro hok
      have h1 : raisesForStatus (net 1).status = true ↔ False := by
        rw [hok]; simp
      simp only [fetch_featured_odds, h422, hr, if_true, h1, if_false]
  · intro hr hne
    refine ⟨?_, ?_⟩ <;> simp [fetch_featured_odds, hr, hne]

theorem fetchStatsLoop_trace_shape (api : StatsRequest → Page)
    (group tag : String) (season : Int) :
    ∀ (fuel off : Nat), ∃ n,
      (fetchStatsLoop api group tag season fuel off).1
        = (List.range n).map (fun i => statsParams group season (off + 100 * i)) := by
  intro fuel
  induction fuel with
  | zero => intro off; exact ⟨0, by simp [fetchStatsLoop]⟩
  | succ f ih =>
    intro off
    simp only [fetchStatsLoop]
    split_ifs with h1 h2
    · refine ⟨1, ?_⟩
      have h10 : List.range 1 = [0] := rfl
      rw [h10]
      simp
    · refine ⟨1, ?_⟩
      have h10 : List.range 1 = [0] := rfl
      rw [h10]
      simp
    · obtain ⟨n, hn⟩ := ih (off + 100)
      refine ⟨n + 1, ?_⟩
      rw [List.range_succ_eq_map]
      simp only [List.map_cons, List.map_map, List.cons.injEq]
      constructor
      · simp
      · rw [hn]
        apply List.map_congr_left
        intro i _
        simp only [Function.comp_apply]
        congr 1
        omega

/-- C4: every request issued by the pagination loops of
`fetch_all_hitting_stats` and `fetch_all_pitching_stats` carries
`limit = 100`, and the request of the n-th iteration carries
`offset = 100 * n`, so offsets advance by exactly the page size and none
is skipped or repeated. -/
theorem stats_requests_fixed_page_size (api : StatsRequest → Page)
    (season : Int) (fuel : Nat) :
    (fetch_all_hitting_stats api season fuel
      = (fetchStatsLoop api "hitting" "hitting_" season fuel 0).2)
    ∧ (fetch_all_pitching_stats api season fuel
      = (fetchStatsLoop api "pitching" "pitching_" season fuel 0).2)
    ∧ (∀ i (h : i <
          (fetchStatsLoop api "hitting" "hitting_" season fuel 0).1.length),
        (fetchStatsLoop api "hitting" "hitting_" season fuel 0).1.get ⟨i, h⟩
          = statsParams "hitting" season (100 * i))
    ∧ (∀ i (h : i <
          (fetchStatsLoop api "pitching" "pitching_" season fuel 0).1.length),
        (fetchStatsLoop api "pitching" "pitching_" season fuel 0).1.get ⟨i, h⟩
          = statsParams "pitching" season (100 * i))
    ∧ (∀ req ∈ (fetchStatsLoop api "hitting" "hitting_" season fuel 0).1,
        req.limit = 100)
    ∧ (∀ req ∈ (fetchStatsLoop api "pitching" "pitching_" season fuel 0).1,
        req.limit = 100) := by
  have key : ∀ (group tag : String) (i : Nat)
      (h : i < (fetchStatsLoop api group tag season fuel 0).1.length),
      (fetchStatsLoop api group tag season fuel 0).1.get ⟨i, h⟩
        = statsParams group season (100 * i) := by
    intro group tag i h
    obtain ⟨n, hn⟩ := fetchStatsLoop_trace_shape api group tag season fuel 0
    rw [List.get_of_eq hn ⟨i, h⟩]
    simp only [List.get_eq_getElem, List.getElem_map, List.getElem_range,
      Fin.coe_cast]
    congr 1
    omega
  have mem : ∀ (group tag : String),
      ∀ req ∈ (fetchStatsLoop api group tag season fuel 0).1,
      req.limit = 100 := by
    intro group tag req hreq
    obtain ⟨i, hget⟩ := List.mem_iff_get.mp hreq
    have hk := key group tag i.1 i.2
    rw [Fin.eta] at hk
    rw [← hget, hk]
    rfl
  exact ⟨rfl, rfl, key "hitting" "hitting_", key "pitching" "pitching_",
    mem "hitting" "hitting_", mem "pitching" "pitching_"⟩

theorem pageRows_ne_nil (tag : String) (p : Page)
    (h : pageIsEmpty p = false) : pageRows tag p ≠ [] := by
  unfold pageIsEmpty at h
  simp only [Bool.or_eq_false_iff, List.isEmpty_eq_false,
    List.all_eq_false] at h
  obtain ⟨-, b, hb, hsplits⟩ := h
  simp only [beq_iff_eq, List.length_eq_zero] at hsplits
  obtain ⟨s, hs⟩ := List.exists_mem_of_ne_nil _ hsplits
  intro hnil
  have hmem : splitRow tag s ∈ pageRows tag p := by
    unfold pageRows
    rw [List.mem_flatMap]
    exact ⟨b, hb, List.mem_map_of_mem _ hs⟩
  rw [hnil] at hmem
  exact List.not_mem_nil _ hmem

theorem fetchStatsLoop_rows (api : StatsRequest → Page)
    (group tag : String) (season : Int) :
    ∀ (k fuel off : Nat), k < fuel →
      pageIsEmpty (api (statsParams group season (off + 100 * k))) = true →
      (∀ j, j < k →
        pageIsEmpty (api (statsParams group season (off + 100 * j))) = false) →
      (fetchStatsLoop api group tag season fuel off).2
        = (List.range k).flatMap
            (fun n => pageRows tag (api (statsParams group season
                (off + 100 * n)))) := by
  intro k
  induction k with
  | zero =>
    intro fuel off hfuel hempty _
    match fuel, hfuel with
    | Nat.succ f, _ =>
      simp only [Nat.mul_zero, Nat.add_zero] at hempty
      simp [fetchStatsLoop, hempty]
  | succ k ih =>
    intro fuel off hfuel hempty hmin
    match fuel, hfuel with
    | Nat.succ f, hfuel =>
      have h0 : pageIsEmpty (api (statsParams group season off)) = false := by
        have := hmin 0 (Nat.succ_pos k)
        simpa using this
      have hbatch : pageRows tag (api (statsParams group season off)) ≠ [] :=
        pageRows_ne_nil tag _ h0
      simp only [fetchStatsLoop, h0, Bool.false_eq_true, if_false,
        List.isEmpty_eq_true, hbatch]
      have ihr := ih f (off + 100) (Nat.lt_of_succ_lt_succ hfuel)
        (by
          have : off + 100 + 100 * k = off + 100 * (k + 1) := by omega
          rw [this]
          exact hempty)
        (by
          intro j hj
          have : off + 100 + 100 * j = off + 100 * (j + 1) := by omega
          rw [this]
          exact hmin (j + 1) (Nat.succ_lt_succ hj))
      rw [ihr, List.range_succ_eq_map]
      simp only [List.flatMap_cons, List.flatMap_map, Nat.mul_zero,
        Nat.add_zero]
      congr 1
      apply List.flatMap_congr
      intro i _
      have harith : off + 100 + 100 * i = off + 100 * (i + 1) := by omega
      rw [harith]

/-- C2: the pagination loop of `fetch_all_hitting_stats` (and identically
`fetch_all_pitching_stats`) exits at the first fetched page whose `stats`
list is empty or whose blocks all have empty `splits`; when some page in
the offset sequence 0, 100, 200, ... is empty in this sense, the function
terminates (any fuel beyond the first empty page yields the same value)
and returns exactly the rows accumulated from the pages before the first
empty page. -/
theorem stats_pagination_stops_at_first_empty_page (api : StatsRequest → Page)
    (season : Int) (kh kp fuel : Nat)
    (hh : pageIsEmpty (api (statsParams "hitting" season (100 * kh))) = true)
    (hhmin : ∀ j, j < kh →
      pageIsEmpty (api (statsParams "hitting" season (100 * j))) = false)
    (hp : pageIsEmpty (api (statsParams "pitching" season (100 * kp))) = true)
    (hpmin : ∀ j, j < kp →
      pageIsEmpty (api (statsParams "pitching" season (100 * j))) = false)
    (hfh : kh < fuel) (hfp : kp < fuel) :
    fetch_all_hitting_stats api season fuel
      = (List.range kh).flatMap
          (fun n => pageRows "hitting_"
            (api (statsParams "hitting" season (100 * n))))
    ∧ fetch_all_pitching_stats api season fuel
      = (List.range kp).flatMap
          (fun n => pageRows "pitching_"
            (api (statsParams "pitching" season (100 * n)))) := by
  constructor
  · unfold fetch_all_hitting_stats
    have hr := fetchStatsLoop_rows api "hitting" "hitting_" season kh fuel 0
      hfh (by simpa using hh) (by intro j hj; simpa using hhmin j hj)
    simpa using hr
  · unfold fetch_all_pitching_stats
    have hr := fetchStatsLoop_rows api "pitching" "pitching_" season kp fuel 0
      hfp (by simpa using hp) (by intro j hj; simpa using hpmin j hj)
    simpa using hr

theorem stats_pagination_stops_witness :
    fetch_all_hitting_stats apiOne 2025 5
      = (List.range 1).flatMap
          (fun n => pageRows "hitting_"
            (apiOne (statsParams "hitting" 2025 (100 * n))))
    ∧ fetch_all_pitching_stats apiOne 2025 5
      = (List.range 1).flatMap
          (fun n => pageRows "pitching_"
            (apiOne (statsParams "pitching" 2025 (100 * n)))) :=
  stats_pagination_stops_at_first_empty_page apiOne 2025 1 1 5
    (by rfl)
    (by intro j hj; have hj0 : j = 0 := (by omega); rw [hj0]; decide)
    (by rfl)
    (by intro j hj; have hj0 : j = 0 := (by omega); rw [hj0]; decide)
    (by omega) (by omega)

/-- C9: `write_odds_row` composes `outcome_name` deterministically: with a
non-empty `player_name` it is `"<player_name> - <description>"` when the
description is non-empty and differs from the outcome's `name`, and
`"<player_name> - <name>"` otherwise; with `player_name` empty or absent
it is the outcome's `name` unchanged; and `point` defaults to the empty
string when the outcome has no `"point"` key. -/
theorem write_odds_row_outcome_name (gi : GameInfo) (bm mk : PyVal)
    (o : List (String × PyVal)) (nm p d : String) (pr : PyVal)
    (hn : pyLookup o "name" = some (PyVal.str nm))
    (hpr : pyLookup o "price" = some pr) :
    (∃ row, write_odds_row gi bm mk o = .ok row)
    ∧ (∀ row, write_odds_row gi bm mk o = .ok row →
        ((pyLookup o "player_name" = some (PyVal.str p) → p ≠ "" →
           ((pyLookup o "description" = some (PyVal.str d) → d ≠ "" →
               d ≠ nm →
               row.outcome_name = PyVal.str (p ++ " - " ++ d))
            ∧ (pyLookup o "description" = some (PyVal.str "") ∨
               pyLookup o "description" = some (PyVal.str nm) ∨
               pyLookup o "description" = Option.none →
               row.outcome_name = PyVal.str (p ++ " - " ++ nm))))
         ∧ ((pyLookup o "player_name" = some (PyVal.str "") ∨
             pyLookup o "player_name" = Option.none) →
            row.outcome_name = PyVal.str nm)
         ∧ (pyLookup o "point" = Option.none →
            row.point = PyVal.str ""))) := by
  have hrow : write_odds_row gi bm mk o = Except.ok
      { commence_time := gi.commence_time, away_team := gi.away_team,
        home_team := gi.home_team, bookmaker := bm, market_key := mk,
        outcome_name :=
          (if pyTruthy (dictGetD o "player_name" (PyVal.str "")) then
            if pyTruthy (dictGetD o "description" (PyVal.str "")) &&
                !(pyBeq (dictGetD o "description" (PyVal.str ""))
                  (PyVal.str nm)) then
              PyVal.str (pyStr (dictGetD o "player_name" (PyVal.str ""))
                ++ " - " ++ pyStr (dictGetD o "description" (PyVal.str "")))
            else
              PyVal.str (pyStr (dictGetD o "player_name" (PyVal.str ""))
                ++ " - " ++ nm)
          else PyVal.str nm),
        player_name := dictGetD o "player_name" (PyVal.str ""),
        description := dictGetD o "description" (PyVal.str ""),
        price := pr, point := dictGetD o "point" (PyVal.str "") } := by
    unfold write_odds_row
    simp [dictGet, hn, hpr, pyStr, Bind.bind, Except.bind]
    rfl
  refine ⟨⟨_, hrow⟩, ?_⟩
  intro row heq
  rw [hrow] at heq
  rw [Except.ok.injEq] at heq
  subst heq
  refine ⟨?_, ?_, ?_⟩
  · intro hpn hpne
    have hpt : pyTruthy (dictGetD o "player_name" (PyVal.str "")) = true := by
      simp [dictGetD, hpn, pyTruthy, hpne]
    constructor
    · intro hd hdne hdnm
      simp only [dictGetD, hd, hpn, Option.getD_some, hpt, if_true,
        pyTruthy, pyBeq, pyStr]
      have h1 : (d == "") = false := by
        simp [hdne]
      have h2 : (d == nm) = false := by
        simp [hdnm]
      simp [h1, h2, hpne]
    · intro hd
      simp only [dictGetD, hpn, Option.getD_some, hpt, if_true]
      rcases hd with hd | hd | hd <;>
        simp [dictGetD, hd, pyTruthy, pyBeq, pyStr, hpne]
  · intro hpn
    have hpt : pyTruthy (dictGetD o "player_name" (PyVal.str "")) = false := by
      rcases hpn with hpn | hpn <;> simp [dictGetD, hpn, pyTruthy]
    simp [hpt]
  · intro hpoint
    simp [dictGetD, hpoint]

theorem write_odds_row_outcome_name_witness :
    ∃ row, write_odds_row giW (PyVal.str "DraftKings")
      (PyVal.str "batter_hits") outcomeW = .ok row :=
  (write_odds_row_outcome_name giW (PyVal.str "DraftKings")
    (PyVal.str "batter_hits") outcomeW "Over" "Judge" "2+ hits"
    (PyVal.int 150) rfl rfl).1

/-- C5: the odds scripts parse responses by direct key access with no
guarding: a game dict lacking `"commence_time"`, `"bookmakers"`,
`"away_team"` or `"home_team"`, and an outcome dict lacking `"name"` or
`"price"`, makes the main-script processing raise a `KeyError` instead of
substituting a default value. -/
theorem direct_key_access_raises_keyerror (g o : List (String × PyVal))
    (gi : GameInfo) (bm mk : PyVal) :
    (pyLookup g "commence_time" = Option.none →
      isKeyError (processGame g) = true)
    ∧ (pyLookup g "away_team" = Option.none →
      isKeyError (processGame g) = true)
    ∧ (pyLookup g "home_team" = Option.none →
      isKeyError (processGame g) = true)
    ∧ (pyLookup g "bookmakers" = Option.none →
      isKeyError (processGame g) = true)
    ∧ (pyLookup o "name" = Option.none →
      isKeyError (write_odds_row gi bm mk o) = true)
    ∧ (pyLookup o "price" = Option.none →
      isKeyError (write_odds_row gi bm mk o) = true) := by
  refine ⟨?_, ?_, ?_, ?_, ?_, ?_⟩
  · intro h
    unfold processGame
    simp [dictGet, h, Bind.bind, Except.bind, isKeyError]
  · intro h
    unfold processGame
    cases hct : pyLookup g "commence_time" with
    | none => simp [dictGet, hct, Bind.bind, Except.bind, isKeyError]
    | some v1 => simp [dictGet, hct, h, Bind.bind, Except.bind, isKeyError]
  · intro h
    unfold processGame
    cases hct : pyLookup g "commence_time" with
    | none => simp [dictGet, hct, Bind.bind, Except.bind, isKeyError]
    | some v1 =>
      cases haw : pyLookup g "away_team" with
      | none => simp [dictGet, hct, haw, Bind.bind, Except.bind, isKeyError]
      | some v2 =>
        simp [dictGet, hct, haw, h, Bind.bind, Except.bind, isKeyError]
  · intro h
    unfold processGame
    cases hct : pyLookup g "commence_time" with
    | none => simp [dictGet, hct, Bind.bind, Except.bind, isKeyError]
    | some v1 =>
      cases haw : pyLookup g "away_team" with
      | none => simp [dictGet, hct, haw, Bind.bind, Except.bind, isKeyError]
      | some v2 =>
        cases hhm : pyLookup g "home_team" with
        | none =>
          simp [dictGet, hct, haw, hhm, Bind.bind, Except.bind, isKeyError]
        | some v3 =>
          simp [dictGet, hct, haw, hhm, h, Bind.bind, Except.bind, isKeyError]
  · intro h
    unfold write_odds_row
    simp [dictGet, h, Bind.bind, Except.bind, isKeyError]
  · intro h
    unfold write_odds_row
    cases hn : pyLookup o "name" with
    | none => simp [dictGet, hn, Bind.bind, Except.bind, isKeyError]
    | some v => simp [dictGet, hn, h, Bind.bind, Except.bind, isKeyError]

/-- C1: the player-stats outer join on `playerId` loses no rows: every
`playerId` occurring in the hitting table or in the pitching table (in
particular in the DataFrames returned by `fetch_all_hitting_stats` and
`fetch_all_pitching_stats`) occurs in the merged table. -/
theorem outer_merge_keeps_all_playerIds (l r : List StatRow) (pid : Int)
    (h : (∃ a ∈ l, a.playerId = pid) ∨ (∃ b ∈ r, b.playerId = pid)) :
    ∃ m ∈ outerMergeOnPlayerId l r, mergedKey m = pid := by
  unfold outerMergeOnPlayerId
  rcases h with ⟨a, ha, hid⟩ | ⟨b, hb, hid⟩
  · by_cases hms : (r.filter (fun q => q.playerId == a.playerId)).isEmpty
    · refine ⟨⟨some a, Option.none⟩, ?_, hid⟩
      apply List.mem_append_left
      rw [List.mem_flatMap]
      refine ⟨a, ha, ?_⟩
      simp only [hms, if_true]
      exact List.mem_singleton.mpr rfl
    · have hnil : r.filter (fun q => q.playerId == a.playerId) ≠ [] := by
        intro hcontra
        exact hms (by rw [hcontra]; rfl)
      obtain ⟨q, hq⟩ := List.exists_mem_of_ne_nil _ hnil
      refine ⟨⟨some a, some q⟩, ?_, hid⟩
      apply List.mem_append_left
      rw [List.mem_flatMap]
      refine ⟨a, ha, ?_⟩
      simp only [hms, if_false]
      exact List.mem_map_of_mem _ hq
  · by_cases hmatch : ∃ a ∈ l, a.playerId = b.playerId
    · obtain ⟨a, ha, haid⟩ := hmatch
      have hbmem : b ∈ r.filter (fun q => q.playerId == a.playerId) := by
        rw [List.mem_filter]
        exact ⟨hb, by simp [haid]⟩
      have hne : (r.filter (fun q => q.playerId == a.playerId)).isEmpty
          = false := by
        rw [List.isEmpty_eq_false]
        exact List.ne_nil_of_mem hbmem
      refine ⟨⟨some a, some b⟩, ?_, by simpa [mergedKey, haid] using hid⟩
      apply List.mem_append_left
      rw [List.mem_flatMap]
      refine ⟨a, ha, ?_⟩
      simp only [hne, Bool.false_eq_true, if_false]
      exact List.mem_map_of_mem _ hbmem
    · push_neg at hmatch
      refine ⟨⟨Option.none, some b⟩, ?_, hid⟩
      apply List.mem_append_right
      apply List.mem_map_of_mem
      rw [List.mem_filter]
      refine ⟨hb, ?_⟩
      rw [List.all_eq_true]
      intro a ha
      simp only [Bool.not_eq_true']
      rw [beq_eq_false_iff_ne]
      exact fun hcontra => (hmatch a ha) (hcontra ▸ rfl)

theorem outer_merge_keeps_all_playerIds_witness :
    ∃ m ∈ outerMergeOnPlayerId [⟨7, "Ace", [("hitting_hr", "2")]⟩]
      [⟨9, "Kid", [("pitching_so", "11")]⟩], mergedKey m = 9 :=
  outer_merge_keeps_all_playerIds
    [⟨7, "Ace", [("hitting_hr", "2")]⟩]
    [⟨9, "Kid", [("pitching_so", "11")]⟩] 9
    (Or.inr ⟨⟨9, "Kid", [("pitching_so", "11")]⟩, List.mem_singleton.mpr rfl,
      rfl⟩)

theorem extraMarketsLoop_cons (f : PyVal → EventFetch) (g : PyVal)
    (gs : List PyVal) :
    extraMarketsLoop f (g :: gs)
      = match gameExtraStep f g with
        | .rows rs =>
            (rs ++ (extraMarketsLoop f gs).1, (extraMarketsLoop f gs).2)
        | .skipped => extraMarketsLoop f gs
        | .aborted e => ([], some e) := by
  simp only [extraMarketsLoop]

theorem extraMarketsLoop_append (f : PyVal → EventFetch)
    (gs1 gs2 : List PyVal)
    (h : ∀ g ∈ gs1, ∀ e, gameExtraStep f g ≠ .aborted e) :
    (extraMarketsLoop f (gs1 ++ gs2)).1
        = (extraMarketsLoop f gs1).1 ++ (extraMarketsLoop f gs2).1
    ∧ (extraMarketsLoop f (gs1 ++ gs2)).2 = (extraMarketsLoop f gs2).2 := by
  induction gs1 with
  | nil => simp [extraMarketsLoop]
  | cons g1 gs1 ih =>
    have h1 : ∀ e, gameExtraStep f g1 ≠ .aborted e :=
      h g1 (List.mem_cons_self g1 gs1)
    have hrest : ∀ g ∈ gs1, ∀ e, gameExtraStep f g ≠ .aborted e :=
      fun g hg => h g (List.mem_cons_of_mem g1 hg)
    obtain ⟨ih1, ih2⟩ := ih hrest
    rw [List.cons_append]
    cases hstep : gameExtraStep f g1 with
    | rows rs =>
      rw [extraMarketsLoop_cons f g1 (gs1 ++ gs2),
        extraMarketsLoop_cons f g1 gs1, hstep]
      exact ⟨by rw [ih1, List.append_assoc], ih2⟩
    | skipped =>
      rw [extraMarketsLoop_cons f g1 (gs1 ++ gs2),
        extraMarketsLoop_cons f g1 gs1, hstep]
      exact ⟨ih1, ih2⟩
    | aborted e => exact absurd hstep (h1 e)

/-- C8: in the extra-markets phase of the CSV script failures are isolated
per game: when `fetch_event_odds` raises an `HTTPError` for a game the
exception is caught and the loop continues, so the run writes exactly the
rows of the same run without that game (earlier and later games' rows all
appear); an exception of any other type aborts the loop after the rows of
the earlier games and propagates. -/
theorem extra_markets_httperror_isolated (f : PyVal → EventFetch)
    (gs1 gs2 : List PyVal) (g : PyVal) :
    (∀ go gid msg, asObj g = .ok go → pyLookup go "id" = some gid →
        f gid = .httpError msg → gameExtraStep f g = .skipped)
    ∧ (gameExtraStep f g = .skipped →
        extraMarketsLoop f (gs1 ++ g :: gs2) = extraMarketsLoop f (gs1 ++ gs2))
    ∧ (∀ e, gameExtraStep f g = .aborted e →
        (∀ g' ∈ gs1, ∀ e', gameExtraStep f g' ≠ .aborted e') →
        extraMarketsLoop f (gs1 ++ g :: gs2)
          = ((extraMarketsLoop f gs1).1, some e)) := by
  refine ⟨?_, ?_, ?_⟩
  · intro go gid msg hobj hid hfetch
    unfold gameExtraStep
    simp [hobj, dictGet, hid, hfetch, Bind.bind, Except.bind, pure,
      Except.pure]
  · intro hskip
    induction gs1 with
    | nil =>
      rw [List.nil_append, List.nil_append, extraMarketsLoop_cons f g gs2,
        hskip]
    | cons g1 gs1 ih =>
      rw [List.cons_append, List.cons_append,
        extraMarketsLoop_cons f g1 (gs1 ++ g :: gs2),
        extraMarketsLoop_cons f g1 (gs1 ++ gs2), ih]
  · intro e habort hclean
    have hcons : extraMarketsLoop f (g :: gs2) = ([], some e) := by
      rw [extraMarketsLoop_cons f g gs2, habort]
    obtain ⟨h1, h2⟩ := extraMarketsLoop_append f gs1 (g :: gs2) hclean
    have hsplit : extraMarketsLoop f (gs1 ++ g :: gs2)
        = ((extraMarketsLoop f (gs1 ++ g :: gs2)).1,
           (extraMarketsLoop f (gs1 ++ g :: gs2)).2) := rfl
    rw [hsplit, h1, h2, hcons]
    simp
